import Mathlib

/-
Verification of the score-checker core (src/api/check.py and src/api/index.py).

The embedding models the pure core functions of the repository:
string handling follows Python semantics on the fragment the parsers use
(whitespace here means space, tab, CR, LF; Python `int` is modelled as an
optional sign followed by decimal digits, after trimming).  Python sets of
tags become `Finset String`; the painting dictionary, whose keys are
inserted in strictly increasing order and hence never collide, becomes an
association list in insertion order; Python `None` results become `none`.
-/

/-- A frame references one painting id and optionally a second one,
mirroring `Frame = Tuple[int, Optional[int]]`. -/
abbrev Frame := Int × Option Int

/-- `Frames = List[Frame]`. -/
abbrev Frames := List Frame

/-- A painting record, mirroring the dict with keys id, orientation, tags. -/
structure Painting where
  id : Int
  orientation : String
  tags : List String
  deriving DecidableEq, Repr

/-- The painting dictionary `Dict[int, Painting]`; keys are inserted in
strictly increasing order during parsing, so an insertion-ordered
association list is a faithful model. -/
abbrev PaintingMap := List (Int × Painting)

/-- The error and warning messages the two parsers can emit, one
constructor per f-string of the source, carrying the interpolated data. -/
inductive Msg where
  | outEmptyFile : Msg
  | outFirstLineNotNumber : Msg
  | outDuplicateInFrame (lineNumber : Nat) (token : String) : Msg
  | outDuplicateAcross (lineNumber : Nat) (paintingId : Int) : Msg
  | outInvalidParts (lineNumber : Nat) : Msg
  | outSkipInvalidLine (lineNumber : Nat) (line : String) : Msg
  | outCountMismatch (declared : Int) (found : Nat) : Msg
  | inEmptyFile : Msg
  | inFirstLineNotNumber : Msg
  | inSkipInvalid (lineNumber : Nat) : Msg
  | inInvalidOrientation (orientation : String) (lineNumber : Nat) : Msg
  | inNotEnoughTags (lineNumber : Nat) (expected : Int) (got : Nat) : Msg
  | inInvalidNumTags (lineNumber : Nat) : Msg
  | inCountMismatch (expected : Int) (parsed : Nat) : Msg
  deriving DecidableEq, Repr

/-- Which stage of check_files produced a failure response. -/
inductive Stage where
  | output : Stage
  | input : Stage
  | score : Stage
  deriving DecidableEq, Repr

/-- The JSON payload assembled by check_files, reduced to its data:
either a failure response with its warnings list, or the success response
with num_frames, num_paintings, global_score and the combined warnings. -/
inductive EvalResult where
  | failed (stage : Stage) (warnings : List Msg) : EvalResult
  | ok (num_frames : Nat) (num_paintings : Nat) (global_score : Nat) (warnings : List Msg) : EvalResult
  deriving DecidableEq, Repr

/-- The characters Python `str.strip()` and `str.split()` treat as
whitespace (restricted to the ASCII ones). -/
def pyIsSpace (c : Char) : Bool :=
  c == ' ' || c == '\t' || c == '\n' || c == '\r' || c == '\x0b' || c == '\x0c'

/-- Drop leading and trailing whitespace from a character list. -/
def pyStripChars (cs : List Char) : List Char :=
  ((cs.dropWhile pyIsSpace).reverse.dropWhile pyIsSpace).reverse

/-- Python `s.strip()`. -/
def pyStrip (s : String) : String :=
  String.mk (pyStripChars s.data)

/-- Split a character list on every newline character; like Python
`s.split(sep)` this yields one piece more than the number of separators,
so the empty input yields one empty piece. -/
def splitOnNl : List Char → List (List Char)
  | [] => [[]]
  | c :: rest =>
    match splitOnNl rest, c == '\n' with
    | r, true => [] :: r
    | [], false => [[c]]
    | h :: t, false => (c :: h) :: t

/-- Python `s.split(chr(10))`. -/
def pyLines (s : String) : List String :=
  (splitOnNl s.data).map String.mk

/-- Whitespace-separated words of a character list, with an accumulator
for the word being read (held reversed). -/
def wordsAux : List Char → List Char → List (List Char)
  | [], acc => if acc = [] then [] else [acc.reverse]
  | c :: rest, acc =>
    if pyIsSpace c then
      if acc = [] then wordsAux rest [] else acc.reverse :: wordsAux rest []
    else wordsAux rest (c :: acc)

/-- Python `s.split()` with no separator: split on whitespace runs and
drop empty pieces. -/
def pySplit (s : String) : List String :=
  (wordsAux s.data []).map String.mk

/-- Decimal value of a digit string; `none` if any character is not a
digit.  The empty list yields `some 0` and is guarded by the callers. -/
def decDigitsVal (cs : List Char) : Option Nat :=
  cs.foldl
    (fun acc c =>
      match acc with
      | none => none
      | some n => if c.isDigit then some (n * 10 + (c.toNat - 48)) else none)
    (some 0)

/-- Python `int(s)` on the strings these parsers feed it: strip, then an
optional sign followed by at least one decimal digit; `none` models the
ValueError raised otherwise. -/
def pyInt (s : String) : Option Int :=
  match pyStripChars s.data with
  | [] => none
  | c :: cs =>
    if c = '-' then
      if cs = [] then none else (decDigitsVal cs).map (fun n => -(n : Int))
    else if c = '+' then
      if cs = [] then none else (decDigitsVal cs).map (fun n => (n : Int))
    else
      (decDigitsVal (c :: cs)).map (fun n => (n : Int))

/-- Outcome of the `for part in parts` loop of read_and_verify_output:
either every token parsed and was fresh (with the parsed ids and the
grown used set), or some token raised ValueError (with the used set grown
by the ids parsed before it), or a parsed id was already used. -/
inductive TokResult where
  | parsed (ids : List Int) (used : List Int) : TokResult
  | valueError (used : List Int) : TokResult
  | dupAcross (paintingId : Int) : TokResult
  deriving DecidableEq, Repr

namespace check

/-- The `for part in parts` loop of read_and_verify_output: parse each
token as an int, fail hard on an already-used id, and record each parsed
id in used before looking at the next token. -/
def processParts : List String → List Int → TokResult
  | [], used => .parsed [] used
  | p :: ps, used =>
    match pyInt p with
    | none => .valueError used
    | some paintingId =>
      if paintingId ∈ used then .dupAcross paintingId
      else
        match processParts ps (paintingId :: used) with
        | .parsed ids usedF => .parsed (paintingId :: ids) usedF
        | r => r

/-- The `for i in range(1, len(lines))` loop of read_and_verify_output,
over the enumerated remaining lines.  In the parsed case every token was
parsed, so ids has the same length as parts and matching on it decides
the 1-token / 2-token / other branches of the source. -/
def outLoop : List (Nat × String) → Frames → List Int → List Msg → Except Msg (Frames × List Msg)
  | [], frames, _, warnings => .ok (frames, warnings)
  | (i, rawLine) :: rest, frames, used, warnings =>
    let line := pyStrip rawLine
    if line = "" then outLoop rest frames used warnings
    else
      let lineNumber := i + 1
      let parts := pySplit line
      if parts.length = 2 ∧ parts.headD "" = parts.getD 1 "" then
        .error (.outDuplicateInFrame lineNumber (parts.headD ""))
      else
        match processParts parts used with
        | .dupAcross paintingId => .error (.outDuplicateAcross lineNumber paintingId)
        | .valueError used2 =>
          outLoop rest frames used2 (warnings ++ [.outSkipInvalidLine lineNumber line])
        | .parsed ids used2 =>
          match ids with
          | [a] => outLoop rest (frames ++ [(a, none)]) used2 warnings
          | [a, b] => outLoop rest (frames ++ [(a, some b)]) used2 warnings
          | _ => outLoop rest frames used2 (warnings ++ [.outInvalidParts lineNumber])

/-- read_and_verify_output after `content.strip().split(chr(10))`. -/
def read_and_verify_output_lines (lines : List String) : Option Frames × List Msg :=
  if lines.isEmpty then (none, [.outEmptyFile])
  else
    match pyInt (lines.headD "") with
    | none => (none, [.outFirstLineNotNumber])
    | some declared_frames =>
      match outLoop (lines.enum.drop 1) [] [] [] with
      | .error e => (none, [e])
      | .ok (frames, warnings) =>
        if declared_frames ≠ (frames.length : Int) then
          (none, [.outCountMismatch declared_frames frames.length])
        else (some frames, warnings)

/-- check.py read_and_verify_output. -/
def read_and_verify_output (content : String) : Option Frames × List Msg :=
  read_and_verify_output_lines (pyLines (pyStrip content))

/-- The `for i in range(1, min(len(lines), num_paintings + 1))` loop of
read_input_file, over the enumerated lines it visits. -/
def inLoop : List (Nat × String) → PaintingMap → List Msg → PaintingMap × List Msg
  | [], paintings, warnings => (paintings, warnings)
  | (i, rawLine) :: rest, paintings, warnings =>
    let line := pyStrip rawLine
    if line = "" then inLoop rest paintings warnings
    else
      let parts := pySplit line
      if parts.length < 2 then
        inLoop rest paintings (warnings ++ [.inSkipInvalid (i + 1)])
      else
        let orientation := parts.headD ""
        if orientation ≠ "L" ∧ orientation ≠ "P" then
          inLoop rest paintings (warnings ++ [.inInvalidOrientation orientation (i + 1)])
        else
          match pyInt (parts.getD 1 "") with
          | none => inLoop rest paintings (warnings ++ [.inInvalidNumTags (i + 1)])
          | some num_tags =>
            if (parts.length : Int) < 2 + num_tags then
              inLoop rest paintings (warnings ++ [.inNotEnoughTags (i + 1) num_tags (parts.length - 2)])
            else
              let tags := (parts.drop 2).take num_tags.toNat
              let painting_id : Int := (i : Int) - 1
              inLoop rest
                (paintings ++ [(painting_id, { id := painting_id, orientation := orientation, tags := tags })])
                warnings

/-- read_input_file after `content.strip().split(chr(10))`.  The loop
visits indices 1 to min(len(lines), num_paintings + 1) - 1, which is
exactly the first num_paintings (clamped at zero) of the enumerated
lines after the count line. -/
def read_input_file_lines (lines : List String) : Option PaintingMap × List Msg :=
  if lines.isEmpty then (none, [.inEmptyFile])
  else
    match pyInt (lines.headD "") with
    | none => (none, [.inFirstLineNotNumber])
    | some num_paintings =>
      let res := inLoop ((lines.enum.drop 1).take num_paintings.toNat) [] []
      if (res.1.length : Int) ≠ num_paintings then
        (some res.1, res.2 ++ [.inCountMismatch num_paintings res.1.length])
      else (some res.1, res.2)

/-- check.py read_input_file. -/
def read_input_file (content : String) : Option PaintingMap × List Msg :=
  read_input_file_lines (pyLines (pyStrip content))

/-- Dictionary lookup `paintings[key]` / membership `key in paintings`. -/
def findPainting (paintings : PaintingMap) (key : Int) : Option Painting :=
  (paintings.find? (fun e => e.1 == key)).map (fun e => e.2)

/-- check.py compute_frameglass_tags. -/
def compute_frameglass_tags (frame : Frame) (paintings : PaintingMap) : Finset String :=
  match frame with
  | (painting_id1, none) =>
    match findPainting paintings painting_id1 with
    | none => ∅
    | some p => p.tags.toFinset
  | (painting_id1, some painting_id2) =>
    match findPainting paintings painting_id1, findPainting paintings painting_id2 with
    | some p1, some p2 => p1.tags.toFinset ∪ p2.tags.toFinset
    | _, _ => ∅

/-- check.py compute_transition_score. -/
def compute_transition_score (tags1 tags2 : Finset String) : Nat :=
  min (tags1 ∩ tags2).card (min (tags1 \ tags2).card (tags2 \ tags1).card)

/-- check.py compute_global_score. -/
def compute_global_score (frames : Frames) (paintings : PaintingMap) : Option Nat :=
  if frames.length < 2 then some 0
  else
    let frameglass_tags := frames.map (fun f => compute_frameglass_tags f paintings)
    some ((List.range (frameglass_tags.length - 1)).foldl
      (fun total i =>
        total + compute_transition_score (frameglass_tags.getD i ∅) (frameglass_tags.getD (i + 1) ∅))
      0)

/-- check.py check_files, reduced to its data flow: validate the output
file, then the input file, then score; on the first failure answer with
that stage and that file's warnings, on success concatenate the output
warnings with the input warnings. -/
def check_files (input_content output_content : String) : EvalResult :=
  match read_and_verify_output output_content with
  | (none, output_warnings) => .failed .output output_warnings
  | (some frames, output_warnings) =>
    match read_input_file input_content with
    | (none, input_warnings) => .failed .input input_warnings
    | (some paintings, input_warnings) =>
      match compute_global_score frames paintings with
      | none => .failed .score []
      | some global_score =>
        .ok frames.length paintings.length global_score (output_warnings ++ input_warnings)

end check

namespace index

/-- The `for part in parts` loop of index.py read_and_verify_output. -/
def processParts : List String → List Int → TokResult
  | [], used => .parsed [] used
  | p :: ps, used =>
    match pyInt p with
    | none => .valueError used
    | some paintingId =>
      if paintingId ∈ used then .dupAcross paintingId
      else
        match processParts ps (paintingId :: used) with
        | .parsed ids usedF => .parsed (paintingId :: ids) usedF
        | r => r

/-- The line loop of index.py read_and_verify_output. -/
def outLoop : List (Nat × String) → Frames → List Int → List Msg → Except Msg (Frames × List Msg)
  | [], frames, _, warnings => .ok (frames, warnings)
  | (i, rawLine) :: rest, frames, used, warnings =>
    let line := pyStrip rawLine
    if line = "" then outLoop rest frames used warnings
    else
      let lineNumber := i + 1
      let parts := pySplit line
      if parts.length = 2 ∧ parts.headD "" = parts.getD 1 "" then
        .error (.outDuplicateInFrame lineNumber (parts.headD ""))
      else
        match processParts parts used with
        | .dupAcross paintingId => .error (.outDuplicateAcross lineNumber paintingId)
        | .valueError used2 =>
          outLoop rest frames used2 (warnings ++ [.outSkipInvalidLine lineNumber line])
        | .parsed ids used2 =>
          match ids with
          | [a] => outLoop rest (frames ++ [(a, none)]) used2 warnings
          | [a, b] => outLoop rest (frames ++ [(a, some b)]) used2 warnings
          | _ => outLoop rest frames used2 (warnings ++ [.outInvalidParts lineNumber])

/-- index.py read_and_verify_output after splitting into lines. -/
def read_and_verify_output_lines (lines : List String) : Option Frames × List Msg :=
  if lines.isEmpty then (none, [.outEmptyFile])
  else
    match pyInt (lines.headD "") with
    | none => (none, [.outFirstLineNotNumber])
    | some declared_frames =>
      match outLoop (lines.enum.drop 1) [] [] [] with
      | .error e => (none, [e])
      | .ok (frames, warnings) =>
        if declared_frames ≠ (frames.length : Int) then
          (none, [.outCountMismatch declared_frames frames.length])
        else (some frames, warnings)

/-- index.py read_and_verify_output. -/
def read_and_verify_output (content : String) : Option Frames × List Msg :=
  read_and_verify_output_lines (pyLines (pyStrip content))

/-- The line loop of index.py read_input_file. -/
def inLoop : List (Nat × String) → PaintingMap → List Msg → PaintingMap × List Msg
  | [], paintings, warnings => (paintings, warnings)
  | (i, rawLine) :: rest, paintings, warnings =>
    let line := pyStrip rawLine
    if line = "" then inLoop rest paintings warnings
    else
      let parts := pySplit line
      if parts.length < 2 then
        inLoop rest paintings (warnings ++ [.inSkipInvalid (i + 1)])
      else
        let orientation := parts.headD ""
        if orientation ≠ "L" ∧ orientation ≠ "P" then
          inLoop rest paintings (warnings ++ [.inInvalidOrientation orientation (i + 1)])
        else
          match pyInt (parts.getD 1 "") with
          | none => inLoop rest paintings (warnings ++ [.inInvalidNumTags (i + 1)])
          | some num_tags =>
            if (parts.length : Int) < 2 + num_tags then
              inLoop rest paintings (warnings ++ [.inNotEnoughTags (i + 1) num_tags (parts.length - 2)])
            else
              let tags := (parts.drop 2).take num_tags.toNat
              let painting_id : Int := (i : Int) - 1
              inLoop rest
                (paintings ++ [(painting_id, { id := painting_id, orientation := orientation, tags := tags })])
                warnings

/-- index.py read_input_file after splitting into lines. -/
def read_input_file_lines (lines : List String) : Option PaintingMap × List Msg :=
  if lines.isEmpty then (none, [.inEmptyFile])
  else
    match pyInt (lines.headD "") with
    | none => (none, [.inFirstLineNotNumber])
    | some num_paintings =>
      let res := inLoop ((lines.enum.drop 1).take num_paintings.toNat) [] []
      if (res.1.length : Int) ≠ num_paintings then
        (some res.1, res.2 ++ [.inCountMismatch num_paintings res.1.length])
      else (some res.1, res.2)

/-- index.py read_input_file. -/
def read_input_file (content : String) : Option PaintingMap × List Msg :=
  read_input_file_lines (pyLines (pyStrip content))

/-- Dictionary lookup, as in check.py. -/
def findPainting (paintings : PaintingMap) (key : Int) : Option Painting :=
  (paintings.find? (fun e => e.1 == key)).map (fun e => e.2)

/-- index.py compute_frameglass_tags. -/
def compute_frameglass_tags (frame : Frame) (paintings : PaintingMap) : Finset String :=
  match frame with
  | (painting_id1, none) =>
    match findPainting paintings painting_id1 with
    | none => ∅
    | some p => p.tags.toFinset
  | (painting_id1, some painting_id2) =>
    match findPainting paintings painting_id1, findPainting paintings painting_id2 with
    | some p1, some p2 => p1.tags.toFinset ∪ p2.tags.toFinset
    | _, _ => ∅

/-- index.py compute_transition_score. -/
def compute_transition_score (tags1 tags2 : Finset String) : Nat :=
  min (tags1 ∩ tags2).card (min (tags1 \ tags2).card (tags2 \ tags1).card)

/-- index.py compute_global_score. -/
def compute_global_score (frames : Frames) (paintings : PaintingMap) : Option Nat :=
  if frames.length < 2 then some 0
  else
    let frameglass_tags := frames.map (fun f => compute_frameglass_tags f paintings)
    some ((List.range (frameglass_tags.length - 1)).foldl
      (fun total i =>
        total + compute_transition_score (frameglass_tags.getD i ∅) (frameglass_tags.getD (i + 1) ∅))
      0)

end index

/-- The painting identifiers a frame references, first slot first. -/
def frameIds : Frame → List Int
  | (a, none) => [a]
  | (a, some b) => [a, b]

/-- Specification-side description of one well-formed output line: one or
two whitespace-separated tokens, each parsing as an integer. -/
def parseLineFrame (rawLine : String) : Option Frame :=
  match pySplit (pyStrip rawLine) with
  | [a] => (pyInt a).map (fun x => (x, none))
  | [a, b] =>
    match pyInt a, pyInt b with
    | some x, some y => some (x, some y)
    | _, _ => none
  | _ => none

/-- Parse every line of a well-formed output body, in order; `none` as
soon as one line is not well-formed. -/
def parseLines : List String → Option (List Frame)
  | [] => some []
  | l :: ls =>
    match parseLineFrame l, parseLines ls with
    | some f, some fs => some (f :: fs)
    | _, _ => none

/-- Specification-side description of one input line at line index i:
the painting produced when the line is accepted, keyed by i - 1, and
`none` when the line is skipped (empty, too few tokens, bad orientation,
unparsable tag count, or too few tags). -/
def parseInputLine (i : Nat) (rawLine : String) : Option (Int × Painting) :=
  let line := pyStrip rawLine
  if line = "" then none
  else
    let parts := pySplit line
    if parts.length < 2 then none
    else
      let orientation := parts.headD ""
      if orientation ≠ "L" ∧ orientation ≠ "P" then none
      else
        match pyInt (parts.getD 1 "") with
        | none => none
        | some num_tags =>
          if (parts.length : Int) < 2 + num_tags then none
          else
            some ((i : Int) - 1,
              { id := (i : Int) - 1, orientation := orientation,
                tags := (parts.drop 2).take num_tags.toNat })

/-- Whether every token of an output line parses as an integer, so the
token loop runs to completion without a ValueError. -/
def allTokensParse : List String → Bool
  | [] => true
  | p :: ps => (pyInt p).isSome && allTokensParse ps

/-- Specification-side description of the identifiers the token loop
registers from one line: the parsed values of the tokens up to (and
excluding) the first token that fails to parse, where the ValueError
aborts the scan. -/
def registeredIds : List String → List Int
  | [] => []
  | p :: ps =>
    match pyInt p with
    | none => []
    | some v => v :: registeredIds ps

/-- Specification-side description of the frame list after one line that
raises no hard error: the line contributes its frame exactly when all of
its tokens parse and it has one or two of them. -/
def lineFrames (frames : Frames) (parts : List String) : Frames :=
  if allTokensParse parts then
    match registeredIds parts with
    | [a] => frames ++ [(a, none)]
    | [a, b] => frames ++ [(a, some b)]
    | _ => frames
  else frames

/-- Specification-side description of the warnings after one line that
raises no hard error: a skip warning when some token fails to parse, a
token-count warning when all tokens parse but the line does not have one
or two of them, and nothing when the line is accepted. -/
def lineWarnings (warnings : List Msg) (lineNumber : Nat) (line : String) (parts : List String) : List Msg :=
  if allTokensParse parts then
    match registeredIds parts with
    | [_] => warnings
    | [_, _] => warnings
    | _ => warnings ++ [.outInvalidParts lineNumber]
  else warnings ++ [.outSkipInvalidLine lineNumber line]

/-- Claim C2: the transition score is the minimum of the three set
cardinalities, symmetric in its arguments, and bounded above by the
smaller of the two cardinalities (it is a natural number, hence also
nonnegative). -/
theorem transition_score_min_symm_bound (A B : Finset String) :
    check.compute_transition_score A B = min (A ∩ B).card (min (A \ B).card (B \ A).card) ∧
    check.compute_transition_score A B = check.compute_transition_score B A ∧
    check.compute_transition_score A B ≤ min A.card B.card := by
  refine ⟨rfl, ?_, ?_⟩
  · simp only [check.compute_transition_score, Finset.inter_comm]
    omega
  · have h1 : (A ∩ B).card ≤ A.card := Finset.card_le_card Finset.inter_subset_left
    have h2 : (A ∩ B).card ≤ B.card := Finset.card_le_card Finset.inter_subset_right
    simp only [check.compute_transition_score]
    omega

/-- Claim C3: tag resolution returns the empty set when a referenced
painting id is absent from the mapping (for a two-painting frame, when
either id is absent, never a partial union), and otherwise the painting's
tag set, respectively the union of the two paintings' tag sets. -/
theorem frameglass_tags_resolution (paintings : PaintingMap) :
    (∀ id1 : Int, id1 ∉ paintings.map Prod.fst →
      check.compute_frameglass_tags (id1, none) paintings = ∅) ∧
    (∀ id1 p, check.findPainting paintings id1 = some p →
      check.compute_frameglass_tags (id1, none) paintings = p.tags.toFinset) ∧
    (∀ id1 id2 : Int, id1 ∉ paintings.map Prod.fst ∨ id2 ∉ paintings.map Prod.fst →
      check.compute_frameglass_tags (id1, some id2) paintings = ∅) ∧
    (∀ id1 id2 p1 p2, check.findPainting paintings id1 = some p1 →
      check.findPainting paintings id2 = some p2 →
      check.compute_frameglass_tags (id1, some id2) paintings = p1.tags.toFinset ∪ p2.tags.toFinset) := by
  have hmem : ∀ k : Int, k ∉ paintings.map Prod.fst → check.findPainting paintings k = none := by
    intro k hk
    have hfind : paintings.find? (fun e => e.1 == k) = none := by
      rw [List.find?_eq_none]
      intro e he
      simp only [beq_iff_eq]
      intro hke
      exact hk (List.mem_map.mpr ⟨e, he, hke⟩)
    simp [check.findPainting, hfind]
  refine ⟨?_, ?_, ?_, ?_⟩
  · intro id1 h1
    simp [check.compute_frameglass_tags, hmem id1 h1]
  · intro id1 p hp
    simp [check.compute_frameglass_tags, hp]
  · intro id1 id2 h
    rcases h with h | h
    · simp [check.compute_frameglass_tags, hmem id1 h]
    · cases hfind : check.findPainting paintings id1 with
      | none => simp [check.compute_frameglass_tags, hfind]
      | some p1 => simp [check.compute_frameglass_tags, hfind, hmem id2 h]
  · intro id1 id2 p1 p2 hp1 hp2
    simp [check.compute_frameglass_tags, hp1, hp2]

/-- Claim C3 witness: a concrete mapping with one painting, a frame
referencing a missing id, and a two-painting frame with one missing id. -/
theorem frameglass_tags_resolution_witness :
    check.compute_frameglass_tags (5, none) [(0, { id := 0, orientation := "P", tags := ["red", "blue"] })] = ∅ ∧
    check.compute_frameglass_tags (0, some 5) [(0, { id := 0, orientation := "P", tags := ["red", "blue"] })] = ∅ ∧
    check.compute_frameglass_tags (0, none) [(0, { id := 0, orientation := "P", tags := ["red", "blue"] })] =
      (["red", "blue"] : List String).toFinset :=
  ⟨(frameglass_tags_resolution _).1 5 (by decide),
   (frameglass_tags_resolution _).2.2.1 0 5 (Or.inr (by decide)),
   (frameglass_tags_resolution _).2.1 0 { id := 0, orientation := "P", tags := ["red", "blue"] } (by decide)⟩

/-- Folding addition of g over List.range n starting at a sums g over
Finset.range n. -/
theorem foldl_add_range_eq_sum (g : Nat → Nat) (n : Nat) :
    ∀ a : Nat, (List.range n).foldl (fun total i => total + g i) a = a + ∑ i in Finset.range n, g i := by
  induction n with
  | zero => intro a; simp
  | succ m ih =>
    intro a
    rw [List.range_succ, List.foldl_append, ih, Finset.sum_range_succ]
    simp only [List.foldl_cons, List.foldl_nil]
    omega

/-- Indexing the mapped tag-set list agrees with resolving the indexed
frame, below the length. -/
theorem getD_map_frameglass (paintings : PaintingMap) :
    ∀ (l : Frames) (i : Nat), i < l.length →
      (l.map (fun f => check.compute_frameglass_tags f paintings)).getD i ∅ =
        check.compute_frameglass_tags (l.getD i ((0 : Int), none)) paintings := by
  intro l
  induction l with
  | nil => intro i h; simp at h
  | cons a t ih =>
    intro i h
    cases i with
    | zero => simp
    | succ j =>
      simp only [List.map_cons, List.getD_cons_succ]
      exact ih j (by simp only [List.length_cons] at h; omega)

/-- Claim C1: for every frame sequence and painting mapping, the global
score is the sum over i from 0 to n-2 of the transition score between the
resolved tag sets of frame i and frame i+1, and it is 0 whenever the
sequence has fewer than 2 frames. -/
theorem global_score_eq_adjacent_sum (frames : Frames) (paintings : PaintingMap) :
    check.compute_global_score frames paintings =
      some (∑ i in Finset.range (frames.length - 1),
        check.compute_transition_score
          (check.compute_frameglass_tags (frames.getD i ((0 : Int), none)) paintings)
          (check.compute_frameglass_tags (frames.getD (i + 1) ((0 : Int), none)) paintings)) ∧
    (frames.length < 2 → check.compute_global_score frames paintings = some 0) := by
  constructor
  · by_cases h : frames.length < 2
    · have h0 : frames.length - 1 = 0 := by omega
      simp [check.compute_global_score, h, h0]
    · simp only [check.compute_global_score, if_neg h, List.length_map]
      rw [foldl_add_range_eq_sum]
      rw [Nat.zero_add]
      congr 1
      refine Finset.sum_congr rfl (fun i hi => ?_)
      have hi1 : i < frames.length - 1 := Finset.mem_range.mp hi
      rw [getD_map_frameglass paintings frames i (by omega),
        getD_map_frameglass paintings frames (i + 1) (by omega)]
  · intro h
    simp [check.compute_global_score, h]

/-- Claim C1 witness: the empty arrangement has fewer than 2 frames and
scores 0. -/
theorem global_score_eq_adjacent_sum_witness :
    check.compute_global_score ([] : Frames) [] = some 0 :=
  (global_score_eq_adjacent_sum [] []).2 (by decide)

/-- Splitting on newlines always yields at least one piece. -/
theorem splitOnNl_ne_nil : ∀ cs : List Char, splitOnNl cs ≠ [] := by
  intro cs
  induction cs with
  | nil => simp [splitOnNl]
  | cons c rest ih =>
    simp only [splitOnNl]
    cases h : splitOnNl rest with
    | nil => exact absurd h ih
    | cons a b => cases hc : (c == '\n') <;> simp

/-- The line list of a file is never empty, so the dead empty-file branch
of both parsers is never taken. -/
theorem pyLines_ne_nil (s : String) : pyLines s ≠ [] := by
  intro h
  exact splitOnNl_ne_nil s.data (by simpa [pyLines] using congrArg (List.map String.data) h)

/-- Boolean form of the previous fact, matching the parsers' guard. -/
theorem pyLines_isEmpty_false (s : String) : (pyLines s).isEmpty = false := by
  cases h : pyLines s with
  | nil => exact absurd h (pyLines_ne_nil s)
  | cons a b => rfl

/-- The only hard errors the output line loop can raise are the two
duplicate errors. -/
theorem outLoop_error_shape (il : List (Nat × String)) :
    ∀ frames used warnings e, check.outLoop il frames used warnings = .error e →
      (∃ ln tok, e = Msg.outDuplicateInFrame ln tok) ∨ ∃ ln pid, e = Msg.outDuplicateAcross ln pid := by
  induction il with
  | nil => intro f u w e h; simp [check.outLoop] at h
  | cons p rest ih =>
    intro f u w e h
    obtain ⟨i, rawLine⟩ := p
    simp only [check.outLoop] at h
    by_cases h1 : pyStrip rawLine = ""
    · rw [if_pos h1] at h; exact ih _ _ _ _ h
    · rw [if_neg h1] at h
      by_cases h2 : (pySplit (pyStrip rawLine)).length = 2 ∧
          (pySplit (pyStrip rawLine)).headD "" = (pySplit (pyStrip rawLine)).getD 1 ""
      · rw [if_pos h2] at h
        exact Or.inl ⟨_, _, (Except.error.inj h).symm⟩
      · rw [if_neg h2] at h
        cases hp : check.processParts (pySplit (pyStrip rawLine)) u with
        | dupAcross pid => rw [hp] at h; exact Or.inr ⟨_, _, (Except.error.inj h).symm⟩
        | valueError u2 => rw [hp] at h; exact ih _ _ _ _ h
        | parsed ids u2 =>
          rw [hp] at h
          rcases ids with _ | ⟨a, _ | ⟨b, _ | _⟩⟩ <;> exact ih _ _ _ _ h

/-- Claim C5 counterexample: a first line holding the negative integer -3
does not make either parse fail with the format error.  The input parse
succeeds outright (with a count-mismatch warning), and the output parse
fails only with the count-mismatch error, not the format error. -/
theorem negative_first_line_counterexample :
    pyInt "-3" = some (-3) ∧
    check.read_input_file "-3" = (some [], [Msg.inCountMismatch (-3) 0]) ∧
    check.read_and_verify_output "-3" = (none, [Msg.outCountMismatch (-3) 0]) := by
  decide

/-- Once the first line parses as a count, the input parser always
returns a painting mapping, whatever the count's sign or value. -/
theorem input_parse_total (content : String) (n : Int)
    (hn : pyInt ((pyLines (pyStrip content)).headD "") = some n) :
    ∃ m w, check.read_input_file content = (some m, w) := by
  have hne := pyLines_isEmpty_false (pyStrip content)
  by_cases hd : (((check.inLoop (((pyLines (pyStrip content)).enum.drop 1).take n.toNat) [] []).1.length : Int) ≠ n)
  · refine ⟨(check.inLoop (((pyLines (pyStrip content)).enum.drop 1).take n.toNat) [] []).1,
      (check.inLoop (((pyLines (pyStrip content)).enum.drop 1).take n.toNat) [] []).2 ++
        [Msg.inCountMismatch n
          (check.inLoop (((pyLines (pyStrip content)).enum.drop 1).take n.toNat) [] []).1.length], ?_⟩
    simp only [check.read_input_file, check.read_input_file_lines, hne,
      Bool.false_eq_true, if_false, hn, if_pos hd]
  · refine ⟨(check.inLoop (((pyLines (pyStrip content)).enum.drop 1).take n.toNat) [] []).1,
      (check.inLoop (((pyLines (pyStrip content)).enum.drop 1).take n.toNat) [] []).2, ?_⟩
    simp only [check.read_input_file, check.read_input_file_lines, hne,
      Bool.false_eq_true, if_false, hn, if_neg hd]

/-- A successful output parse has exactly the declared number of frames,
so in particular the declared count of a successful parse is never
negative. -/
theorem output_success_declared (content : String) (fs : Frames) (w : List Msg)
    (h : check.read_and_verify_output content = (some fs, w)) :
    pyInt ((pyLines (pyStrip content)).headD "") = some (fs.length : Int) := by
  have hne := pyLines_isEmpty_false (pyStrip content)
  simp only [check.read_and_verify_output, check.read_and_verify_output_lines, hne,
    Bool.false_eq_true, if_false] at h
  cases hp : pyInt ((pyLines (pyStrip content)).headD "") with
  | none =>
    simp only [hp] at h
    have h2 := congrArg Prod.fst h
    simp at h2
  | some d =>
    simp only [hp] at h
    cases ho : check.outLoop ((pyLines (pyStrip content)).enum.drop 1) [] [] [] with
    | error e =>
      simp only [ho] at h
      have h2 := congrArg Prod.fst h
      simp at h2
    | ok res =>
      obtain ⟨fs0, ws0⟩ := res
      simp only [ho] at h
      by_cases hd : d ≠ (fs0.length : Int)
      · rw [if_pos hd] at h
        have h2 := congrArg Prod.fst h
        simp at h2
      · rw [if_neg hd] at h
        have h2 := congrArg Prod.fst h
        simp only [not_ne_iff] at hd
        simp only [Option.some.injEq] at h2
        subst h2
        rw [hd]

/-- Claim C5 as amended: for both parsers, the parse fails with the
first-line format error exactly when the first line does not parse as an
integer at all (an optional sign followed by digits).  A first line that
parses as any integer, a negative one included, is accepted as the
declared count: the input parse then always succeeds, and for a negative
declared count the output parse yields no frames (it is rejected, but
never with the format error). -/
theorem format_error_iff_first_line_not_integer (content : String) :
    (check.read_and_verify_output content = (none, [Msg.outFirstLineNotNumber]) ↔
      pyInt ((pyLines (pyStrip content)).headD "") = none) ∧
    (check.read_input_file content = (none, [Msg.inFirstLineNotNumber]) ↔
      pyInt ((pyLines (pyStrip content)).headD "") = none) ∧
    (∀ n : Int, pyInt ((pyLines (pyStrip content)).headD "") = some n →
      (∃ m w, check.read_input_file content = (some m, w)) ∧
      (n < 0 → (check.read_and_verify_output content).1 = none)) := by
  have hne := pyLines_isEmpty_false (pyStrip content)
  refine ⟨⟨?_, ?_⟩, ⟨?_, ?_⟩, ?_⟩
  · intro h
    simp only [check.read_and_verify_output, check.read_and_verify_output_lines, hne,
      Bool.false_eq_true, if_false] at h
    cases hp : pyInt ((pyLines (pyStrip content)).headD "") with
    | none => rfl
    | some d =>
      exfalso
      simp only [hp] at h
      cases ho : check.outLoop ((pyLines (pyStrip content)).enum.drop 1) [] [] [] with
      | error e =>
        simp only [ho] at h
        have he : e = Msg.outFirstLineNotNumber := by
          have h2 := congrArg Prod.snd h
          simpa using h2
        rcases outLoop_error_shape _ _ _ _ _ ho with ⟨ln, tok, rfl⟩ | ⟨ln, pid, rfl⟩ <;> simp at he
      | ok res =>
        obtain ⟨fs, ws⟩ := res
        simp only [ho] at h
        by_cases hd : d ≠ (fs.length : Int)
        · rw [if_pos hd] at h
          have h2 := congrArg Prod.snd h
          simp at h2
        · rw [if_neg hd] at h
          have h2 := congrArg Prod.fst h
          simp at h2
  · intro h
    simp only [check.read_and_verify_output, check.read_and_verify_output_lines, hne,
      Bool.false_eq_true, if_false, h]
  · intro h
    simp only [check.read_input_file, check.read_input_file_lines, hne,
      Bool.false_eq_true, if_false] at h
    cases hp : pyInt ((pyLines (pyStrip content)).headD "") with
    | none => rfl
    | some d =>
      exfalso
      simp only [hp] at h
      by_cases hd : (((check.inLoop (((pyLines (pyStrip content)).enum.drop 1).take d.toNat) [] []).1.length : Int) ≠ d)
      · rw [if_pos hd] at h
        have h2 := congrArg Prod.fst h
        simp at h2
      · rw [if_neg hd] at h
        have h2 := congrArg Prod.fst h
        simp at h2
  · intro h
    simp only [check.read_input_file, check.read_input_file_lines, hne,
      Bool.false_eq_true, if_false, h]
  · intro n hn
    refine ⟨input_parse_total content n hn, ?_⟩
    intro hneg
    cases hro : check.read_and_verify_output content with
    | mk o w2 =>
      cases o with
      | none => rfl
      | some fs =>
        exfalso
        have hdecl := output_success_declared content fs w2 hro
        rw [hn] at hdecl
        have hnn := Option.some.inj hdecl
        omega

/-- Claim C5 witness: with the concrete first line -3, the input parse
returns a painting mapping and the output parse yields no frames. -/
theorem format_error_iff_first_line_not_integer_witness :
    (∃ m w, check.read_input_file "-3" = (some m, w)) ∧
    (check.read_and_verify_output "-3").1 = none :=
  ⟨((format_error_iff_first_line_not_integer "-3").2.2 (-3) (by decide)).1,
   ((format_error_iff_first_line_not_integer "-3").2.2 (-3) (by decide)).2 (by decide)⟩

/-- The global score computation is total: it always returns a value. -/
theorem global_score_total (frames : Frames) (paintings : PaintingMap) :
    ∃ g, check.compute_global_score frames paintings = some g := by
  simp only [check.compute_global_score]
  by_cases h : frames.length < 2
  · exact ⟨0, by rw [if_pos h]⟩
  · exact ⟨_, by rw [if_neg h]⟩

/-- Claim C7: count mismatches are asymmetric.  If the output loop ends
with a frame count different from the declared one, the whole output
parse answers the count-mismatch error and no frames; an output parse
that succeeds always has exactly the declared number of frames.  For the
input file, once the first line parses as a count, parsing always
succeeds, a mismatch merely appending a final warning. -/
theorem count_mismatch_asymmetry :
    (∀ (lines : List String) (n : Int) (fs : Frames) (w2 : List Msg),
      pyInt (lines.headD "") = some n →
      check.outLoop (lines.enum.drop 1) [] [] [] = .ok (fs, w2) →
      n ≠ (fs.length : Int) →
      check.read_and_verify_output_lines lines = (none, [Msg.outCountMismatch n fs.length])) ∧
    (∀ (content : String) (fs : Frames) (w : List Msg),
      check.read_and_verify_output content = (some fs, w) →
      pyInt ((pyLines (pyStrip content)).headD "") = some (fs.length : Int)) ∧
    (∀ (content : String) (n : Int),
      pyInt ((pyLines (pyStrip content)).headD "") = some n →
      ∃ m w, check.read_input_file content = (some m, w) ∧
        ((m.length : Int) ≠ n → w.getLast? = some (Msg.inCountMismatch n m.length))) := by
  refine ⟨?_, ?_, ?_⟩
  · intro lines n fs w2 hn ho hmis
    have hne : lines.isEmpty = false := by
      cases lines with
      | nil =>
        have hx : pyInt (([] : List String).headD "") = none := by decide
        rw [hx] at hn
        exact Option.noConfusion hn
      | cons a b => rfl
    simp only [check.read_and_verify_output_lines, hne, Bool.false_eq_true, if_false, hn, ho,
      if_pos hmis]
  · intro content fs w h
    have hne := pyLines_isEmpty_false (pyStrip content)
    simp only [check.read_and_verify_output, check.read_and_verify_output_lines, hne,
      Bool.false_eq_true, if_false] at h
    cases hp : pyInt ((pyLines (pyStrip content)).headD "") with
    | none =>
      simp only [hp] at h
      have h2 := congrArg Prod.fst h
      simp at h2
    | some d =>
      simp only [hp] at h
      cases ho : check.outLoop ((pyLines (pyStrip content)).enum.drop 1) [] [] [] with
      | error e =>
        simp only [ho] at h
        have h2 := congrArg Prod.fst h
        simp at h2
      | ok res =>
        obtain ⟨fs0, ws0⟩ := res
        simp only [ho] at h
        by_cases hd : d ≠ (fs0.length : Int)
        · rw [if_pos hd] at h
          have h2 := congrArg Prod.fst h
          simp at h2
        · rw [if_neg hd] at h
          have h2 := congrArg Prod.fst h
          simp only [not_ne_iff] at hd
          simp only [Option.some.injEq] at h2
          subst h2
          rw [hd]
  · intro content n hn
    have hne := pyLines_isEmpty_false (pyStrip content)
    by_cases hd : (((check.inLoop (((pyLines (pyStrip content)).enum.drop 1).take n.toNat) [] []).1.length : Int) ≠ n)
    · refine ⟨(check.inLoop (((pyLines (pyStrip content)).enum.drop 1).take n.toNat) [] []).1,
        (check.inLoop (((pyLines (pyStrip content)).enum.drop 1).take n.toNat) [] []).2 ++
          [Msg.inCountMismatch n
            (check.inLoop (((pyLines (pyStrip content)).enum.drop 1).take n.toNat) [] []).1.length],
        ?_, ?_⟩
      · simp only [check.read_input_file, check.read_input_file_lines, hne,
          Bool.false_eq_true, if_false, hn, if_pos hd]
      · intro _
        rw [List.getLast?_concat]
    · refine ⟨(check.inLoop (((pyLines (pyStrip content)).enum.drop 1).take n.toNat) [] []).1,
        (check.inLoop (((pyLines (pyStrip content)).enum.drop 1).take n.toNat) [] []).2, ?_, ?_⟩
      · simp only [check.read_input_file, check.read_input_file_lines, hne,
          Bool.false_eq_true, if_false, hn, if_neg hd]
      · intro hcon
        exact absurd hcon hd

/-- Claim C7 witness: an output file declaring 2 frames with one accepted
line fails with the mismatch error; a successful output parse of one
frame has declared count 1; an input file declaring 3 paintings with one
valid line succeeds with a final mismatch warning. -/
theorem count_mismatch_asymmetry_witness :
    check.read_and_verify_output_lines ["2", "7"] = (none, [Msg.outCountMismatch 2 1]) ∧
    pyInt ((pyLines (pyStrip "1\n7")).headD "") = some (([((7 : Int), (none : Option Int))] : Frames).length : Int) ∧
    ∃ m w, check.read_input_file "3\nL 1 a" = (some m, w) ∧
      ((m.length : Int) ≠ 3 → w.getLast? = some (Msg.inCountMismatch 3 m.length)) :=
  ⟨count_mismatch_asymmetry.1 ["2", "7"] 2 [(7, none)] [] (by decide) (by rfl) (by decide),
   count_mismatch_asymmetry.2.1 "1\n7" [(7, none)] [] (by decide),
   count_mismatch_asymmetry.2.2 "3\nL 1 a" 3 (by decide)⟩

/-- Claim C8: check_files validates the output file first; when the
output parse fails the answer is the output-stage failure with the output
warnings and does not depend on the input text at all, and when both
parses succeed the answer is the success payload whose warnings are the
output warnings followed by the input warnings. -/
theorem check_files_stage_order (input_content output_content : String) :
    ((check.read_and_verify_output output_content).1 = none →
      check.check_files input_content output_content =
        EvalResult.failed Stage.output (check.read_and_verify_output output_content).2 ∧
      ∀ other_input, check.check_files other_input output_content =
        check.check_files input_content output_content) ∧
    (∀ (frames : Frames) (ow : List Msg) (paintings : PaintingMap) (iw : List Msg),
      check.read_and_verify_output output_content = (some frames, ow) →
      check.read_input_file input_content = (some paintings, iw) →
      ∃ g, check.check_files input_content output_content =
        EvalResult.ok frames.length paintings.length g (ow ++ iw)) := by
  constructor
  · intro h
    rcases hro : check.read_and_verify_output output_content with ⟨fo, wo⟩
    rw [hro] at h
    simp only at h
    subst h
    constructor
    · simp [check.check_files, hro]
    · intro other_input
      simp [check.check_files, hro]
  · intro frames ow paintings iw hro hri
    obtain ⟨g, hg⟩ := global_score_total frames paintings
    exact ⟨g, by simp [check.check_files, hro, hri, hg]⟩

/-- Claim C8 witness: a malformed output file fails at the output stage
whatever the input text is, and a well-formed pair succeeds with the
concatenated warnings. -/
theorem check_files_stage_order_witness :
    (check.check_files "1\nL 1 a" "x" = EvalResult.failed Stage.output (check.read_and_verify_output "x").2 ∧
      ∀ other_input, check.check_files other_input "x" = check.check_files "1\nL 1 a" "x") ∧
    ∃ g, check.check_files "2\nP 1 a\nzz" "1\n0" =
      EvalResult.ok 1 1 g ([] ++ [Msg.inSkipInvalid 3, Msg.inCountMismatch 2 1]) :=
  ⟨(check_files_stage_order "1\nL 1 a" "x").1 (by decide),
   (check_files_stage_order "2\nP 1 a\nzz" "1\n0").2 [(0, none)] []
     [(0, { id := 0, orientation := "P", tags := ["a"] })]
     [Msg.inSkipInvalid 3, Msg.inCountMismatch 2 1] (by decide) (by decide)⟩

/-- Claim C4 counterexample: the line "5 x" is skipped with a warning and
yields no frame (first conjunct, with declared count 0), yet in a file
declaring 1 frame the identifier 5 parsed from that skipped line makes
the later line "5" fail with the duplicate-across-frames error (second
conjunct), although no previously accepted line used 5. -/
theorem skipped_line_id_counterexample :
    check.read_and_verify_output "0\n5 x" = (some [], [Msg.outSkipInvalidLine 2 "5 x"]) ∧
    check.read_and_verify_output "1\n5 x\n5" = (none, [Msg.outDuplicateAcross 3 5]) := by
  decide

/-- On a line whose registered ids are mutually distinct and fresh, the
token loop registers exactly them: it completes when every token parses
and raises the ValueError otherwise, either way growing the used set by
the registered ids. -/
theorem processParts_registers (parts : List String) :
    ∀ used : List Int,
      (registeredIds parts).Nodup →
      (∀ v ∈ registeredIds parts, v ∉ used) →
      check.processParts parts used =
        if allTokensParse parts then
          TokResult.parsed (registeredIds parts) ((registeredIds parts).reverse ++ used)
        else TokResult.valueError ((registeredIds parts).reverse ++ used) := by
  induction parts with
  | nil =>
    intro used _ _
    simp [check.processParts, registeredIds, allTokensParse]
  | cons p ps ih =>
    intro used hnd hfresh
    cases hp : pyInt p with
    | none =>
      simp [check.processParts, registeredIds, allTokensParse, hp]
    | some v =>
      simp only [registeredIds, hp] at hnd hfresh
      have hnd2 := List.nodup_cons.mp hnd
      have hv_used : v ∉ used := hfresh v (List.mem_cons_self _ _)
      have hfresh2 : ∀ u ∈ registeredIds ps, u ∉ v :: used := by
        intro u hu
        simp only [List.mem_cons]
        rintro (rfl | huold)
        · exact hnd2.1 hu
        · exact hfresh u (List.mem_cons_of_mem _ hu) huold
      cases hall : allTokensParse ps with
      | true =>
        simp [check.processParts, hp, registeredIds, allTokensParse, hall, if_neg hv_used,
          ih (v :: used) hnd2.2 hfresh2, List.reverse_cons, List.append_assoc]
      | false =>
        simp [check.processParts, hp, registeredIds, allTokensParse, hall, if_neg hv_used,
          ih (v :: used) hnd2.2 hfresh2, List.reverse_cons, List.append_assoc]

/-- When a token parses to an identifier that is already registered -
either earlier on the same line or in the incoming used set - the token
loop raises the hard duplicate, whatever tokens follow. -/
theorem processParts_duplicate (pre : List String) :
    ∀ (t : String) (post : List String) (used : List Int) (v : Int),
      allTokensParse pre = true →
      (registeredIds pre).Nodup →
      (∀ u ∈ registeredIds pre, u ∉ used) →
      pyInt t = some v →
      (v ∈ registeredIds pre ∨ v ∈ used) →
      check.processParts (pre ++ t :: post) used = TokResult.dupAcross v := by
  induction pre with
  | nil =>
    intro t post used v _ _ _ hvt hv
    have hvu : v ∈ used := by
      rcases hv with h | h
      · simp [registeredIds] at h
      · exact h
    simp only [List.nil_append, check.processParts, hvt]
    rw [if_pos hvu]
  | cons p ps ih =>
    intro t post used v hall hnd hfresh hvt hv
    simp only [allTokensParse, Bool.and_eq_true] at hall
    obtain ⟨hps, hall2⟩ := hall
    cases hp : pyInt p with
    | none => rw [hp] at hps; simp at hps
    | some w =>
      simp only [registeredIds, hp] at hnd hfresh hv
      have hnd2 := List.nodup_cons.mp hnd
      have hw_used : w ∉ used := hfresh w (List.mem_cons_self _ _)
      simp only [List.cons_append, check.processParts, hp]
      rw [if_neg hw_used]
      have hrec := ih t post (w :: used) v hall2 hnd2.2
        (by
          intro u hu
          simp only [List.mem_cons]
          rintro (rfl | huold)
          · exact hnd2.1 hu
          · exact hfresh u (List.mem_cons_of_mem _ hu) huold)
        hvt
        (by
          rcases hv with hv1 | hv2
          · rcases List.mem_cons.mp hv1 with rfl | hv3
            · exact Or.inr (List.mem_cons_self _ _)
            · exact Or.inl hv3
          · exact Or.inr (List.mem_cons_of_mem _ hv2))
      rw [List.append_eq, hrec]

/-- Claim C4 as amended.  First conjunct, registration: for every
processed line of any shape that raises no hard error (its registered
ids are mutually distinct and unused; it is not a textually identical
two-token line), the loop goes on with the used set grown by every
identifier parsed from the line's tokens - also when the line is skipped
with a warning for a wrong token count or for a later token that is not
an integer; the frame is appended exactly for an accepted one- or
two-token line.  Second conjunct, failure: a later line holding, at any
token position, a token that parses to an already registered identifier
(earlier on the same line or in the used set fed by any earlier accepted
or skipped line) fails the whole parse with the duplicate-across-frames
error. -/
theorem used_ids_include_skipped_lines :
    (∀ (rest : List (Nat × String)) (i : Nat) (rawLine : String)
       (frames : Frames) (used : List Int) (warnings : List Msg),
      pyStrip rawLine ≠ "" →
      ¬((pySplit (pyStrip rawLine)).length = 2 ∧
        (pySplit (pyStrip rawLine)).headD "" = (pySplit (pyStrip rawLine)).getD 1 "") →
      (registeredIds (pySplit (pyStrip rawLine))).Nodup →
      (∀ v ∈ registeredIds (pySplit (pyStrip rawLine)), v ∉ used) →
      check.outLoop ((i, rawLine) :: rest) frames used warnings =
        check.outLoop rest (lineFrames frames (pySplit (pyStrip rawLine)))
          ((registeredIds (pySplit (pyStrip rawLine))).reverse ++ used)
          (lineWarnings warnings (i + 1) (pyStrip rawLine) (pySplit (pyStrip rawLine)))) ∧
    (∀ (rest2 : List (Nat × String)) (j : Nat) (rawLine2 : String)
       (frames2 : Frames) (used2 : List Int) (warnings2 : List Msg)
       (pre : List String) (t : String) (post : List String) (v : Int),
      pyStrip rawLine2 ≠ "" →
      pySplit (pyStrip rawLine2) = pre ++ t :: post →
      ¬((pre ++ t :: post).length = 2 ∧
        (pre ++ t :: post).headD "" = (pre ++ t :: post).getD 1 "") →
      allTokensParse pre = true →
      (registeredIds pre).Nodup →
      (∀ u ∈ registeredIds pre, u ∉ used2) →
      pyInt t = some v →
      (v ∈ registeredIds pre ∨ v ∈ used2) →
      check.outLoop ((j, rawLine2) :: rest2) frames2 used2 warnings2 =
        Except.error (Msg.outDuplicateAcross (j + 1) v)) := by
  constructor
  · intro rest i rawLine frames used warnings hline hpair hnd hfresh
    simp only [check.outLoop]
    rw [if_neg hline, if_neg hpair,
      processParts_registers (pySplit (pyStrip rawLine)) used hnd hfresh]
    cases hall : allTokensParse (pySplit (pyStrip rawLine)) with
    | true =>
      cases hR : registeredIds (pySplit (pyStrip rawLine)) with
      | nil => simp [lineFrames, lineWarnings, hall, hR]
      | cons a tl =>
        cases tl with
        | nil => simp [lineFrames, lineWarnings, hall, hR]
        | cons b tl2 =>
          cases tl2 with
          | nil => simp [lineFrames, lineWarnings, hall, hR]
          | cons c tl3 => simp [lineFrames, lineWarnings, hall, hR]
    | false => simp [lineFrames, lineWarnings, hall]
  · intro rest2 j rawLine2 frames2 used2 warnings2 pre t post v
      hline2 hsplit2 hpair2 hall hnd hfresh hvt hv
    simp only [check.outLoop]
    rw [if_neg hline2, hsplit2, if_neg hpair2,
      processParts_duplicate pre t post used2 v hall hnd hfresh hvt hv]

/-- Claim C4 witness: the line "1 2 3" has a wrong token count, so it is
skipped with a warning, yet registers the identifiers 1, 2 and 3; the
later line "2" then fails the parse with the duplicate-across error. -/
theorem used_ids_include_skipped_lines_witness :
    check.outLoop [(1, "1 2 3"), (2, "2")] [] [] [] =
      Except.error (Msg.outDuplicateAcross 3 2) := by
  rw [used_ids_include_skipped_lines.1 [(2, "2")] 1 "1 2 3" [] [] []
    (by decide) (by decide) (by decide) (by decide)]
  exact used_ids_include_skipped_lines.2 [] 2 "2"
    (lineFrames [] (pySplit (pyStrip "1 2 3")))
    ((registeredIds (pySplit (pyStrip "1 2 3"))).reverse ++ [])
    (lineWarnings [] 2 (pyStrip "1 2 3") (pySplit (pyStrip "1 2 3")))
    [] "2" [] 2
    (by decide) (by decide) (by decide) (by decide) (by decide) (by decide) (by decide) (by decide)

/-- The paintings accumulated by the input line loop are exactly the
per-line parses of the visited lines, in order, after the accumulator. -/
theorem inLoop_paintings_spec (il : List (Nat × String)) :
    ∀ (acc : PaintingMap) (w : List Msg),
      (check.inLoop il acc w).1 = acc ++ il.filterMap (fun e => parseInputLine e.1 e.2) := by
  induction il with
  | nil => intro acc w; simp [check.inLoop]
  | cons e rest ih =>
    intro acc w
    obtain ⟨i, rawLine⟩ := e
    by_cases h1 : pyStrip rawLine = ""
    · have hpl : parseInputLine i rawLine = none := by
        simp only [parseInputLine]
        rw [if_pos h1]
      simp only [check.inLoop, List.filterMap_cons, hpl]
      rw [if_pos h1]
      exact ih acc w
    · by_cases h2 : (pySplit (pyStrip rawLine)).length < 2
      · have hpl : parseInputLine i rawLine = none := by
          simp only [parseInputLine]
          rw [if_neg h1, if_pos h2]
        simp only [check.inLoop, List.filterMap_cons, hpl]
        rw [if_neg h1, if_pos h2]
        exact ih acc _
      · by_cases h3 : (pySplit (pyStrip rawLine)).headD "" ≠ "L" ∧ (pySplit (pyStrip rawLine)).headD "" ≠ "P"
        · have hpl : parseInputLine i rawLine = none := by
            simp only [parseInputLine]
            rw [if_neg h1, if_neg h2, if_pos h3]
          simp only [check.inLoop, List.filterMap_cons, hpl]
          rw [if_neg h1, if_neg h2, if_pos h3]
          exact ih acc _
        · cases h4 : pyInt ((pySplit (pyStrip rawLine)).getD 1 "") with
          | none =>
            have hpl : parseInputLine i rawLine = none := by
              simp only [parseInputLine]
              rw [if_neg h1, if_neg h2, if_neg h3]
              simp only [h4]
            simp only [check.inLoop, List.filterMap_cons, hpl]
            rw [if_neg h1, if_neg h2, if_neg h3]
            simp only [h4]
            exact ih acc _
          | some num_tags =>
            by_cases h5 : ((pySplit (pyStrip rawLine)).length : Int) < 2 + num_tags
            · have hpl : parseInputLine i rawLine = none := by
                simp only [parseInputLine]
                rw [if_neg h1, if_neg h2, if_neg h3]
                simp only [h4]
                rw [if_pos h5]
              simp only [check.inLoop, List.filterMap_cons, hpl]
              rw [if_neg h1, if_neg h2, if_neg h3]
              simp only [h4]
              rw [if_pos h5]
              exact ih acc _
            · have hpl : parseInputLine i rawLine =
                  some ((i : Int) - 1,
                    { id := (i : Int) - 1, orientation := (pySplit (pyStrip rawLine)).headD "",
                      tags := ((pySplit (pyStrip rawLine)).drop 2).take num_tags.toNat }) := by
                simp only [parseInputLine]
                rw [if_neg h1, if_neg h2, if_neg h3]
                simp only [h4]
                rw [if_neg h5]
              simp only [check.inLoop, List.filterMap_cons, hpl]
              rw [if_neg h1, if_neg h2, if_neg h3]
              simp only [h4]
              rw [if_neg h5, ih, List.append_assoc]
              rfl

/-- A line accepted by the per-line input parser is keyed by its line
index minus one, and the stored painting's id field equals that key. -/
theorem parseInputLine_key (i : Nat) (rawLine : String) (e : Int × Painting)
    (h : parseInputLine i rawLine = some e) :
    e.1 = (i : Int) - 1 ∧ e.2.id = e.1 := by
  simp only [parseInputLine] at h
  split at h
  · exact Option.noConfusion h
  split at h
  · exact Option.noConfusion h
  split at h
  · exact Option.noConfusion h
  split at h
  · exact Option.noConfusion h
  split at h
  · exact Option.noConfusion h
  obtain rfl := Option.some.inj h
  exact ⟨rfl, rfl⟩

/-- Claim C6: every successfully parsed painting sits in the mapping
under the key line-index minus one (the first data line yields 0), the
stored id equals the key, and the mapping is exactly the in-order
filterMap of the per-line parser over the visited lines, so a skipped
line leaves a gap in the identifier sequence instead of renumbering. -/
theorem painting_identifier_eq_line_index (content : String) (n : Int) (m : PaintingMap) (w : List Msg)
    (hn : pyInt ((pyLines (pyStrip content)).headD "") = some n)
    (h : check.read_input_file content = (some m, w)) :
    m = (((pyLines (pyStrip content)).enum.drop 1).take n.toNat).filterMap
        (fun e => parseInputLine e.1 e.2) ∧
    (∀ e ∈ m, e.2.id = e.1) ∧
    (∀ e ∈ m, ∃ i rawLine, (i, rawLine) ∈ (pyLines (pyStrip content)).enum.drop 1 ∧
      parseInputLine i rawLine = some e ∧ e.1 = (i : Int) - 1) := by
  have hne := pyLines_isEmpty_false (pyStrip content)
  have hm : m = (((pyLines (pyStrip content)).enum.drop 1).take n.toNat).filterMap
      (fun e => parseInputLine e.1 e.2) := by
    simp only [check.read_input_file, check.read_input_file_lines, hne, Bool.false_eq_true,
      if_false, hn] at h
    have hspec := inLoop_paintings_spec (((pyLines (pyStrip content)).enum.drop 1).take n.toNat) [] []
    by_cases hd : (((check.inLoop (((pyLines (pyStrip content)).enum.drop 1).take n.toNat) [] []).1.length : Int) ≠ n)
    · rw [if_pos hd] at h
      have h2 := congrArg Prod.fst h
      simp only [Option.some.injEq] at h2
      rw [← h2, hspec, List.nil_append]
    · rw [if_neg hd] at h
      have h2 := congrArg Prod.fst h
      simp only [Option.some.injEq] at h2
      rw [← h2, hspec, List.nil_append]
  refine ⟨hm, ?_, ?_⟩
  · intro e he
    rw [hm] at he
    obtain ⟨⟨i, raw⟩, hmem, hp⟩ := List.mem_filterMap.mp he
    exact (parseInputLine_key i raw e hp).2
  · intro e he
    rw [hm] at he
    obtain ⟨⟨i, raw⟩, hmem, hp⟩ := List.mem_filterMap.mp he
    exact ⟨i, raw, List.take_subset _ _ hmem, hp, (parseInputLine_key i raw e hp).1⟩

/-- Claim C6 witness: an input file whose third line is skipped yields
the mapping with keys 0 and 2, leaving a gap at 1. -/
theorem painting_identifier_eq_line_index_witness :
    [((0 : Int), ({ id := 0, orientation := "L", tags := ["a"] } : Painting)),
     ((2 : Int), ({ id := 2, orientation := "P", tags := ["b"] } : Painting))] =
      (((pyLines (pyStrip "3\nL 1 a\nbad\nP 1 b")).enum.drop 1).take (3 : Int).toNat).filterMap
        (fun e => parseInputLine e.1 e.2) :=
  (painting_identifier_eq_line_index "3\nL 1 a\nbad\nP 1 b" 3
    [(0, { id := 0, orientation := "L", tags := ["a"] }),
     (2, { id := 2, orientation := "P", tags := ["b"] })]
    [Msg.inSkipInvalid 3, Msg.inCountMismatch 3 2] (by decide) (by decide)).1

/-- parseLines preserves the number of lines. -/
theorem parseLines_length : ∀ (body : List String) (fs : List Frame),
    parseLines body = some fs → fs.length = body.length := by
  intro body
  induction body with
  | nil =>
    intro fs h
    simp only [parseLines] at h
    obtain rfl := Option.some.inj h
    rfl
  | cons l ls ih =>
    intro fs h
    simp only [parseLines] at h
    cases hl : parseLineFrame l with
    | none => simp [hl] at h
    | some f =>
      cases hr : parseLines ls with
      | none => simp [hl, hr] at h
      | some fs2 =>
        simp only [hl, hr] at h
        obtain rfl := Option.some.inj h
        simp [ih fs2 hr]

/-- On a block of lines that all parse as well-formed frames whose
identifiers are globally fresh and mutually distinct, the output line
loop accepts every line in order, appends the corresponding frames, and
emits no warning and no error. -/
theorem outLoop_wellformed (il : List (Nat × String)) :
    ∀ (newFrames : List Frame) (frames : Frames) (used : List Int) (warnings : List Msg),
      parseLines (il.map Prod.snd) = some newFrames →
      (∀ v ∈ newFrames.flatMap frameIds, v ∉ used) →
      (newFrames.flatMap frameIds).Nodup →
      check.outLoop il frames used warnings = .ok (frames ++ newFrames, warnings) := by
  induction il with
  | nil =>
    intro nf frames used warnings hp _ _
    simp only [List.map_nil, parseLines] at hp
    obtain rfl := Option.some.inj hp
    simp [check.outLoop]
  | cons e rest ih =>
    intro nf frames used warnings hp hfresh hnodup
    obtain ⟨i, rawLine⟩ := e
    simp only [List.map_cons, parseLines] at hp
    cases hl : parseLineFrame rawLine with
    | none => simp [hl] at hp
    | some f =>
      cases hr : parseLines (rest.map Prod.snd) with
      | none => simp [hl, hr] at hp
      | some fs =>
        simp only [hl, hr] at hp
        obtain rfl := Option.some.inj hp
        have hline : pyStrip rawLine ≠ "" := by
          intro h0
          have hps0 : pySplit "" = [] := rfl
          simp [parseLineFrame, h0, hps0] at hl
        simp only [check.outLoop]
        rw [if_neg hline]
        simp only [parseLineFrame] at hl
        cases hsp : pySplit (pyStrip rawLine) with
        | nil => simp [hsp] at hl
        | cons a tl =>
          cases tl with
          | nil =>
            simp only [hsp] at hl
            cases hpa : pyInt a with
            | none => simp [hpa] at hl
            | some x =>
              rw [hpa] at hl
              obtain rfl := Option.some.inj (by simpa using hl)
              simp only [List.flatMap_cons, frameIds, List.singleton_append] at hfresh hnodup
              have hx_used : x ∉ used := hfresh x (by simp)
              have hxtl := List.nodup_cons.mp hnodup
              have hpair : ¬(([a] : List String).length = 2 ∧ ([a] : List String).headD "" = [a].getD 1 "") := by
                simp
              rw [if_neg hpair]
              simp only [check.processParts, hpa]
              rw [if_neg hx_used]
              simp only [check.processParts]
              have hrec := ih fs (frames ++ [(x, none)]) (x :: used) warnings
                hr
                (by
                  intro v hv
                  simp only [List.mem_cons]
                  rintro (rfl | hvold)
                  · exact hxtl.1 hv
                  · exact hfresh v (by simp [hv]) hvold)
                hxtl.2
              rw [hrec, List.append_assoc]
              rfl
          | cons b tl2 =>
            cases tl2 with
            | cons c tl3 => simp [hsp] at hl
            | nil =>
              simp only [hsp] at hl
              cases hpa : pyInt a with
              | none => simp [hpa] at hl
              | some x =>
                cases hpb : pyInt b with
                | none => simp [hpa, hpb] at hl
                | some y =>
                  simp only [hpa, hpb] at hl
                  obtain rfl := Option.some.inj hl
                  simp only [List.flatMap_cons, frameIds, List.cons_append,
                    List.singleton_append] at hfresh hnodup
                  have hnd1 := List.nodup_cons.mp hnodup
                  have hnd2 := List.nodup_cons.mp hnd1.2
                  have hxy : x ≠ y := by
                    intro hxy0
                    exact hnd1.1 (by simp [hxy0])
                  have hx_used : x ∉ used := hfresh x (by simp)
                  have hy_used : y ∉ used := hfresh y (by simp)
                  have hab : ¬(a = b) := by
                    intro hab0
                    rw [hab0, hpb] at hpa
                    exact hxy (Option.some.inj hpa).symm
                  have hpair : ¬(([a, b] : List String).length = 2 ∧ ([a, b] : List String).headD "" = [a, b].getD 1 "") := by
                    simp [hab]
                  rw [if_neg hpair]
                  simp only [check.processParts, hpa, hpb]
                  rw [if_neg hx_used]
                  have hy_xused : y ∉ x :: used := by
                    simp only [List.mem_cons]
                    rintro (rfl | hvold)
                    · exact hxy rfl
                    · exact hy_used hvold
                  rw [if_neg hy_xused]
                  simp only [check.processParts]
                  have hx_tl : x ∉ fs.flatMap frameIds :=
                    fun hmem => hnd1.1 (List.mem_cons_of_mem _ hmem)
                  have hy_tl : y ∉ fs.flatMap frameIds := hnd2.1
                  have hrec := ih fs (frames ++ [(x, some y)]) (y :: x :: used) warnings
                    hr
                    (by
                      intro v hv
                      simp only [List.mem_cons]
                      rintro (rfl | rfl | hvold)
                      · exact hy_tl hv
                      · exact hx_tl hv
                      · exact hfresh v (by simp [hv]) hvold)
                    hnd2.2
                  rw [hrec, List.append_assoc]
                  rfl

/-- Claim C9: for every output text whose first line declares exactly the
number of subsequent lines, each of which holds one or two integer
tokens, with all referenced identifiers pairwise distinct across the
whole file, the parse succeeds with exactly those frames in line order
and no warnings. -/
theorem roundtrip_wellformed_output (content firstLine : String) (body : List String) (frames : List Frame)
    (hsplit : pyLines (pyStrip content) = firstLine :: body)
    (hcount : pyInt firstLine = some (body.length : Int))
    (hparse : parseLines body = some frames)
    (hnodup : (frames.flatMap frameIds).Nodup) :
    check.read_and_verify_output content = (some frames, []) ∧ frames.length = body.length := by
  have hlen : frames.length = body.length := parseLines_length body frames hparse
  refine ⟨?_, hlen⟩
  have hmap : (((firstLine :: body).enum.drop 1).map Prod.snd) = body := by
    rw [List.map_drop, List.enum_map_snd]
    rfl
  have hloop := outLoop_wellformed ((firstLine :: body).enum.drop 1) frames [] [] []
    (by rw [hmap]; exact hparse)
    (by intro v _ hv; exact List.not_mem_nil v hv)
    hnodup
  simp only [check.read_and_verify_output, hsplit, check.read_and_verify_output_lines,
    List.isEmpty_cons, Bool.false_eq_true, if_false, List.headD_cons, hcount, hloop,
    List.nil_append]
  rw [if_neg (by rw [hlen]; exact fun hcon => hcon rfl)]

/-- Claim C9 witness: the file declaring 2 frames with body lines "0 1"
and "2" parses to the two frames in order with no warnings. -/
theorem roundtrip_wellformed_output_witness :
    check.read_and_verify_output "2\n0 1\n2" = (some [(0, some 1), (2, none)], []) ∧
    ([((0 : Int), some (1 : Int)), ((2 : Int), (none : Option Int))] : List Frame).length =
      (["0 1", "2"] : List String).length :=
  roundtrip_wellformed_output "2\n0 1\n2" "2" ["0 1", "2"] [(0, some 1), (2, none)]
    (by decide) (by decide) (by decide) (by decide)

/-- The loops of the two duplicated token parsers agree. -/
theorem processParts_agree (ps : List String) (used : List Int) :
    check.processParts ps used = index.processParts ps used := by
  induction ps generalizing used with
  | nil => rfl
  | cons p pst ih =>
    simp only [check.processParts, index.processParts]
    cases pyInt p with
    | none => rfl
    | some v =>
      by_cases hv : v ∈ used
      · simp [hv]
      · simp [hv, ih]

/-- The line loops of the two duplicated output parsers agree. -/
theorem outLoop_agree (il : List (Nat × String)) (frames : Frames) (used : List Int) (warnings : List Msg) :
    check.outLoop il frames used warnings = index.outLoop il frames used warnings := by
  induction il generalizing frames used warnings with
  | nil => rfl
  | cons e rest ih =>
    obtain ⟨i, rawLine⟩ := e
    simp only [check.outLoop, index.outLoop, processParts_agree, ih]

/-- The line loops of the two duplicated input parsers agree. -/
theorem inLoop_agree (il : List (Nat × String)) (paintings : PaintingMap) (warnings : List Msg) :
    check.inLoop il paintings warnings = index.inLoop il paintings warnings := by
  induction il generalizing paintings warnings with
  | nil => rfl
  | cons e rest ih =>
    obtain ⟨i, rawLine⟩ := e
    simp only [check.inLoop, index.inLoop, ih]

/-- Claim C10: the core logic functions duplicated in check.py and
index.py are extensionally equal, pair by pair. -/
theorem core_functions_extensionally_equal :
    (∀ content, check.read_and_verify_output content = index.read_and_verify_output content) ∧
    (∀ content, check.read_input_file content = index.read_input_file content) ∧
    (∀ frame paintings, check.compute_frameglass_tags frame paintings = index.compute_frameglass_tags frame paintings) ∧
    (∀ tags1 tags2, check.compute_transition_score tags1 tags2 = index.compute_transition_score tags1 tags2) ∧
    (∀ frames paintings, check.compute_global_score frames paintings = index.compute_global_score frames paintings) := by
  refine ⟨?_, ?_, fun _ _ => rfl, fun _ _ => rfl, fun _ _ => rfl⟩
  · intro content
    simp only [check.read_and_verify_output, index.read_and_verify_output,
      check.read_and_verify_output_lines, index.read_and_verify_output_lines, outLoop_agree]
  · intro content
    simp only [check.read_input_file, index.read_input_file,
      check.read_input_file_lines, index.read_input_file_lines, inLoop_agree]
